import Mathlib

/-!
# Verification of the availability-slot search in `ai-task-scheduler`

This file gives a shallow embedding of the slot-search algorithm of
`src/services/calendar.ts` (`GoogleCalendarService.findAvailableSlots`)
and of the slot-selection part of the scheduling flow in the task agent
(`createAndScheduleTask` / `processMessage`), together with theorems about
the embedded definitions.

Modelling conventions:

* An instant is an `Int`, the number of milliseconds since the Unix epoch,
  exactly as in a JavaScript `Date`.
* A time zone is a function `Int → Int` giving the UTC offset in whole
  hours at a given instant (America/Los_Angeles is `-8` or `-7` depending
  on daylight saving).  `parseInt(d.toLocaleString('en-US', {timeZone,
  hour:'numeric', hour12:false}))` is modelled by `localHour`, using the
  modern `h23` hour cycle (hours `0`–`23`).
* The code also uses the process-local accessors `getMinutes`,
  `setMinutes`, `getHours` and `setHours`.  The process zone is modelled
  as an arbitrary fixed whole-hour UTC offset.  Under any such offset the
  combinations the code uses are offset-independent:
  - `d.setMinutes(d.getMinutes() + 30)` adds exactly 30 minutes;
  - `d.setMinutes(m, 0, 0)` (with `m < 60`) yields
    `hourFloor d + m minutes`;
  - `d.setHours(d.getHours() + k, 0, 0, 0)` yields
    `hourFloor d + k hours`,
  where `hourFloor` truncates to the enclosing UTC hour boundary.
  The definitions below use these offset-independent forms directly.
* Division and remainder on `Int` are Euclidean (`/`, `%`), which agree
  with JavaScript's floor semantics for the positive divisors used here.
-/

namespace TaskScheduler

/-- Milliseconds per minute. -/
def msPerMinute : Int := 60000

/-- Milliseconds per hour. -/
def msPerHour : Int := 3600000

/-- Milliseconds per day. -/
def msPerDay : Int := 86400000

/-- A time zone: the UTC offset, in whole hours, in effect at an instant. -/
abbrev Zone := Int → Int

/-- Local hour of day (0–23) of instant `t` in zone `z`; the model of
`parseInt(t.toLocaleString('en-US', {timeZone, hour:'numeric', hour12:false}))`. -/
def localHour (z : Zone) (t : Int) : Int :=
  (t / msPerHour + z t) % 24

/-- Minute of hour (0–59) of instant `t`; whole-hour offsets do not change it,
so this models `getMinutes()` for any whole-hour process zone. -/
def minuteOfHour (t : Int) : Int :=
  (t / msPerMinute) % 60

/-- Truncate `t` to the enclosing hour boundary (same for any whole-hour zone). -/
def hourFloor (t : Int) : Int :=
  t - t % msPerHour

/-- Truncate `t` to the enclosing minute boundary. -/
def minuteFloor (t : Int) : Int :=
  t - t % msPerMinute

/-- The IANA zone America/Los_Angeles, modelled from tzdata for 2024–2026
(the span containing every concrete date used in this file): offset `-7`
between the second Sunday of March, 10:00 UTC, and the first Sunday of
November, 09:00 UTC, of each year, and `-8` otherwise. -/
def pacificOffset : Zone := fun t =>
  if t < 1710064800000 then -8        -- before 2024-03-10T10:00Z
  else if t < 1730624400000 then -7   -- before 2024-11-03T09:00Z
  else if t < 1741514400000 then -8   -- before 2025-03-09T10:00Z
  else if t < 1762074000000 then -7   -- before 2025-11-02T09:00Z
  else if t < 1772964000000 then -8   -- before 2026-03-08T10:00Z
  else if t < 1793523600000 then -7   -- before 2026-11-01T09:00Z
  else -8

/-- A busy interval fetched from the calendar (`CalendarEvent`, keeping only
the `start`/`end` fields the search reads). -/
structure CalEvent where
  start : Int
  «end» : Int
deriving DecidableEq, Repr

/-- A free slot produced by the search (`ScheduleSlot`). -/
structure Slot where
  start : Int
  «end» : Int
  available : Bool
deriving DecidableEq, Repr

/-- `const schedulingWindowStart = 5` in `findAvailableSlots`. -/
def schedulingWindowStart : Int := 5

/-- `const schedulingWindowEnd = 24` in `findAvailableSlots`. -/
def schedulingWindowEnd : Int := 24

/-- `const maxSlotsToCheck = 500` in `findAvailableSlots`. -/
def maxSlotsToCheck : Nat := 500

/-- The window test of `findAvailableSlots` (calendar.ts:141-144):
`pacificHour >= schedulingWindowStart && slotEndPacificHour <= schedulingWindowEnd`. -/
def isWithinSchedulingWindow (z : Zone) (cur slotEnd : Int) : Bool :=
  decide (schedulingWindowStart ≤ localHour z cur) &&
  decide (localHour z slotEnd ≤ schedulingWindowEnd)

/-- The per-event conflict test (calendar.ts:149):
`currentDate < event.end && slotEnd > event.start`. -/
def conflictsWith (cur slotEnd : Int) (e : CalEvent) : Bool :=
  decide (cur < e.«end») && decide (slotEnd > e.start)

/-- `events.some(event => ...)` (calendar.ts:148-150). -/
def hasConflict (events : List CalEvent) (cur slotEnd : Int) : Bool :=
  events.any (conflictsWith cur slotEnd)

/-- The initial cursor (calendar.ts:107-114): round `startDate` to the next
30-minute mark using `roundedMinutes = Math.ceil(minutes / 30) * 30`, with
`setHours(getHours()+1, 0, 0, 0)` when the rounding reaches 60 and
`setMinutes(roundedMinutes, 0, 0)` otherwise. -/
def initialCursor (startDate : Int) : Int :=
  if (minuteOfHour startDate + 29) / 30 * 30 ≥ 60 then
    hourFloor startDate + msPerHour
  else
    hourFloor startDate + (minuteOfHour startDate + 29) / 30 * 30 * msPerMinute

/-- One cursor advance (calendar.ts:161-184): add 30 minutes, then, when the
new Pacific hour is at/after `schedulingWindowEnd` or before
`schedulingWindowStart`, jump with
`setHours(getHours() + hoursToAdd, 0, 0, 0)` where `hoursToAdd` is
`(24 - h) + schedulingWindowStart` in the first case and
`schedulingWindowStart - h` in the second. -/
def advanceCursor (z : Zone) (cur : Int) : Int :=
  if localHour z (cur + 30 * msPerMinute) ≥ schedulingWindowEnd ∨
      localHour z (cur + 30 * msPerMinute) < schedulingWindowStart then
    hourFloor (cur + 30 * msPerMinute) +
      (if localHour z (cur + 30 * msPerMinute) ≥ schedulingWindowEnd then
        24 - localHour z (cur + 30 * msPerMinute) + schedulingWindowStart
      else
        schedulingWindowStart - localHour z (cur + 30 * msPerMinute)) * msPerHour
  else
    cur + 30 * msPerMinute

/-- The enumeration loop of `findAvailableSlots` (calendar.ts:124-185).
`fuel` stands for `maxSlotsToCheck - slotsChecked`, so `fuel = 0` is exactly
the loop guard `slotsChecked < maxSlotsToCheck` failing; `checked` counts the
candidate positions examined so far.  Returns the accumulated slots together
with the final `slotsChecked`. -/
def searchLoop (z : Zone) (durationMinutes : Int) (events : List CalEvent)
    (endDate : Int) : Nat → Int → List Slot → Nat → List Slot × Nat
  | 0, _, acc, checked => (acc, checked)
  | fuel + 1, cur, acc, checked =>
    if cur < endDate then
      searchLoop z durationMinutes events endDate fuel (advanceCursor z cur)
        (if isWithinSchedulingWindow z cur (cur + durationMinutes * msPerMinute) &&
            !hasConflict events cur (cur + durationMinutes * msPerMinute) then
          acc ++ [{ start := cur, «end» := cur + durationMinutes * msPerMinute,
                    available := true }]
        else acc)
        (checked + 1)
    else (acc, checked)

/-- `findAvailableSlots(durationMinutes, startDate, endDate)`
(calendar.ts:85-203), with the fetched busy events passed explicitly.
Returns the slot list together with the final `slotsChecked` counter. -/
def findAvailableSlots (z : Zone) (durationMinutes : Int) (events : List CalEvent)
    (startDate endDate : Int) : List Slot × Nat :=
  searchLoop z durationMinutes events endDate maxSlotsToCheck
    (initialCursor startDate) [] 0

/-- The message of the error thrown by `createAndScheduleTask` when the slot
list is empty (agent, line 278). -/
def noSlotsMessage : String := "No available time slots found in the specified time range"

/-- The user-visible text appended by `processMessage` when
`createAndScheduleTask` throws (agent, line 212). -/
def schedulingErrorNotice : String := "Sorry, I encountered an error saving the task. Please try again."

/-- The slot-selection step of `createAndScheduleTask` (agent, lines 277-284):
throw when the list is empty, otherwise take `availableSlots[0]`. -/
def selectSlot : List Slot → Except String Slot
  | [] => Except.error noSlotsMessage
  | s :: _ => Except.ok s

/-- The `catch` branch of `processMessage` (agent, lines 209-213): any error
thrown while scheduling is surfaced to the user as the one constant notice;
the thrown message itself is only logged, never shown. -/
def surfaceError (_thrown : String) : String :=
  schedulingErrorNotice

/-- `searchStartDate` of `createAndScheduleTask` (agent, lines 248-252):
`now`, or `preferredStartDate` when provided and in the future. -/
def computeSearchStart : Int → Option Int → Int
  | now, none => now
  | now, some p => if p > now then p else now

/-- `searchEndDate` of `createAndScheduleTask` (agent, lines 254-261):
`searchStartDate + 7 days`, replaced by the deadline when one is provided
and lies further out. -/
def computeSearchEnd : Int → Option Int → Int
  | searchStartDate, none => searchStartDate + 7 * msPerDay
  | searchStartDate, some d =>
    if d > searchStartDate + 7 * msPerDay then d
    else searchStartDate + 7 * msPerDay

/-! ## Basic lemmas -/

theorem localHour_nonneg (z : Zone) (t : Int) : 0 ≤ localHour z t :=
  Int.emod_nonneg _ (by norm_num)

theorem localHour_lt_24 (z : Zone) (t : Int) : localHour z t < 24 :=
  Int.emod_lt_of_pos _ (by norm_num)

/-- The cursor strictly increases at every advance. -/
theorem advanceCursor_lt (z : Zone) (cur : Int) : cur < advanceCursor z cur := by
  have h0 := localHour_nonneg z (cur + 30 * msPerMinute)
  have h1 := localHour_lt_24 z (cur + 30 * msPerMinute)
  have h2 : 0 ≤ (cur + 30 * msPerMinute) % msPerHour :=
    Int.emod_nonneg _ (by norm_num [msPerHour])
  have h3 : (cur + 30 * msPerMinute) % msPerHour < msPerHour :=
    Int.emod_lt_of_pos _ (by norm_num [msPerHour])
  unfold advanceCursor hourFloor
  simp only [msPerMinute, msPerHour, schedulingWindowStart, schedulingWindowEnd] at *
  split_ifs <;> omega

/-- A loop step with the cursor at or past `endDate` returns immediately. -/
theorem searchLoop_stop (z : Zone) (dur : Int) (events : List CalEvent)
    (endDate : Int) (fuel : Nat) (cur : Int) (acc : List Slot) (checked : Nat)
    (h : ¬cur < endDate) :
    searchLoop z dur events endDate fuel cur acc checked = (acc, checked) := by
  cases fuel with
  | zero => rfl
  | succ n => rw [searchLoop, if_neg h]

/-- The `slotsChecked` counter grows by at most the available fuel. -/
theorem searchLoop_checked (z : Zone) (dur : Int) (events : List CalEvent)
    (endDate : Int) :
    ∀ (fuel : Nat) (cur : Int) (acc : List Slot) (checked : Nat),
      (searchLoop z dur events endDate fuel cur acc checked).2 ≤ checked + fuel := by
  intro fuel
  induction fuel with
  | zero => intro cur acc checked; simp [searchLoop]
  | succ n ih =>
    intro cur acc checked
    rw [searchLoop]
    split
    · exact le_trans (ih _ _ _) (by omega)
    · simp

/-- Every slot in the loop's output satisfies `P`, provided slots already in
the accumulator do and every pushed candidate does. -/
theorem searchLoop_mem (z : Zone) (dur : Int) (events : List CalEvent)
    (endDate : Int) (P : Slot → Prop)
    (hP : ∀ cur : Int,
      (isWithinSchedulingWindow z cur (cur + dur * msPerMinute) &&
        !hasConflict events cur (cur + dur * msPerMinute)) = true →
      P { start := cur, «end» := cur + dur * msPerMinute, available := true }) :
    ∀ (fuel : Nat) (cur : Int) (acc : List Slot) (checked : Nat),
      (∀ s ∈ acc, P s) →
      ∀ s ∈ (searchLoop z dur events endDate fuel cur acc checked).1, P s := by
  intro fuel
  induction fuel with
  | zero =>
    intro cur acc checked hacc s hs
    exact hacc s (by simpa [searchLoop] using hs)
  | succ n ih =>
    intro cur acc checked hacc s hs
    rw [searchLoop] at hs
    split at hs
    · split at hs
      · refine ih _ _ _ ?_ s hs
        intro t ht
        rcases List.mem_append.mp ht with h | h
        · exact hacc t h
        · rename_i hcond
          rw [List.mem_singleton.mp h]
          exact hP cur hcond
      · exact ih _ _ _ hacc s hs
    · exact hacc s hs

/-- The loop keeps the slot list strictly sorted by start, given that the
accumulator is sorted and lies strictly before the cursor. -/
theorem searchLoop_sorted (z : Zone) (dur : Int) (events : List CalEvent)
    (endDate : Int) :
    ∀ (fuel : Nat) (cur : Int) (acc : List Slot) (checked : Nat),
      acc.Pairwise (fun a b => a.start < b.start) →
      (∀ s ∈ acc, s.start < cur) →
      (searchLoop z dur events endDate fuel cur acc checked).1.Pairwise
        (fun a b => a.start < b.start) := by
  intro fuel
  induction fuel with
  | zero =>
    intro cur acc checked h1 h2
    simpa [searchLoop] using h1
  | succ n ih =>
    intro cur acc checked h1 h2
    rw [searchLoop]
    split
    · split
      · refine ih _ _ _ ?_ ?_
        · rw [List.pairwise_append]
          refine ⟨h1, by simp, ?_⟩
          intro a ha b hb
          rw [List.mem_singleton.mp hb]
          exact h2 a ha
        · intro s hs
          rcases List.mem_append.mp hs with h | h
          · exact lt_trans (h2 s h) (advanceCursor_lt z cur)
          · rw [List.mem_singleton.mp h]
            exact advanceCursor_lt z cur
      · refine ih _ _ _ h1 ?_
        intro s hs
        exact lt_trans (h2 s hs) (advanceCursor_lt z cur)
    · exact h1

/-! ## Claim C1: window containment -/

/-- C1, counterexample.  With `windowEndHour = 24` the end-hour check
`slotEndPacificHour <= 24` is vacuous (local hours are 0–23), so a candidate
whose end falls at 00:20 local time on the next day is NOT rejected: searching
from 2025-01-07T07:30Z (= Jan 6, 23:30 Pacific) with a 50-minute duration and
no busy events returns the slot 23:30–00:20, whose end has Pacific hour 0
and minute 20, i.e. lies before the window start of its day. -/
theorem window_containment_counterexample :
    findAvailableSlots pacificOffset 50 [] 1736235000000 1736235060000 =
      ([{ start := 1736235000000, «end» := 1736238000000, available := true }], 1) ∧
    localHour pacificOffset 1736235000000 = 23 ∧
    localHour pacificOffset 1736238000000 = 0 ∧
    minuteOfHour 1736238000000 = 20 ∧
    localHour pacificOffset 1736238000000 < schedulingWindowStart := by
  decide

/-- C1, amended.  For every returned slot, the start's local hour in the
reference zone is in `[windowStartHour, windowEndHour)` and the end's local
hour is `<= windowEndHour`; but since local hours range over 0–23, the end
check is vacuous for `windowEndHour = 24`, and a slot may extend past local
midnight into excluded hours of the next day (it is not rejected). -/
theorem window_containment_amended (z : Zone) (dur : Int) (events : List CalEvent)
    (startDate endDate : Int) :
    ∀ slot ∈ (findAvailableSlots z dur events startDate endDate).1,
      schedulingWindowStart ≤ localHour z slot.start ∧
      localHour z slot.start < 24 ∧
      0 ≤ localHour z slot.«end» ∧
      localHour z slot.«end» ≤ schedulingWindowEnd := by
  apply searchLoop_mem
  · intro cur hcond
    simp only [Bool.and_eq_true, Bool.not_eq_true'] at hcond
    obtain ⟨hw, -⟩ := hcond
    simp only [isWithinSchedulingWindow, Bool.and_eq_true, decide_eq_true_eq] at hw
    exact ⟨hw.1, localHour_lt_24 z cur, localHour_nonneg z _, hw.2⟩
  · intro s hs
    exact absurd hs (List.not_mem_nil s)

/-- C1, witness for the amended theorem at a concrete returned slot. -/
theorem window_containment_witness :
    schedulingWindowStart ≤ localHour pacificOffset 1736269200000 ∧
    localHour pacificOffset 1736269200000 < 24 ∧
    0 ≤ localHour pacificOffset 1736272800000 ∧
    localHour pacificOffset 1736272800000 ≤ schedulingWindowEnd :=
  window_containment_amended pacificOffset 60 [] 1736269200000 1736269260000
    { start := 1736269200000, «end» := 1736272800000, available := true } (by decide)

/-! ## Claim C2: no overlap, boundary touch tolerated -/

/-- C2: every returned slot is disjoint from every busy interval in the sense
`NOT (slot.start < busy.end AND slot.end > busy.start)`, and a busy interval
ending exactly at a candidate's start (or starting exactly at its end) never
makes the conflict test fire. -/
theorem no_overlap_with_boundary_tolerance :
    (∀ (z : Zone) (dur : Int) (events : List CalEvent) (startDate endDate : Int),
      ∀ slot ∈ (findAvailableSlots z dur events startDate endDate).1,
        ∀ b ∈ events, ¬(slot.start < b.«end» ∧ slot.«end» > b.start)) ∧
    (∀ (cs ce : Int) (b : CalEvent), b.«end» = cs ∨ b.start = ce →
      conflictsWith cs ce b = false) := by
  constructor
  · intro z dur events startDate endDate
    apply searchLoop_mem
    · intro cur hcond
      simp only [Bool.and_eq_true, Bool.not_eq_true'] at hcond
      obtain ⟨-, hfalse⟩ := hcond
      intro b hb hcontra
      have : hasConflict events cur (cur + dur * msPerMinute) = true := by
        simp only [hasConflict, List.any_eq_true]
        refine ⟨b, hb, ?_⟩
        simp only [conflictsWith, Bool.and_eq_true, decide_eq_true_eq]
        exact hcontra
      rw [hfalse] at this
      exact Bool.false_ne_true this
    · intro s hs
      exact absurd hs (List.not_mem_nil s)
  · intro cs ce b hb
    simp only [conflictsWith, Bool.and_eq_false_iff, decide_eq_false_iff_not, not_lt]
    rcases hb with h | h
    · exact Or.inl (by omega)
    · exact Or.inr (by omega)

/-- C2, witness: a concrete run with a busy interval touching the returned
slot exactly at its end, plus the boundary-touch tolerance at the same
candidate for a busy interval ending exactly at the candidate's start. -/
theorem no_overlap_witness :
    ¬((1736269200000 : Int) < 1736276400000 ∧ (1736272800000 : Int) > 1736272800000) ∧
    conflictsWith 1736269200000 1736272800000
      { start := 1736265600000, «end» := 1736269200000 } = false :=
  ⟨no_overlap_with_boundary_tolerance.1 pacificOffset 60
      [{ start := 1736272800000, «end» := 1736276400000 }] 1736269200000 1736269260000
      { start := 1736269200000, «end» := 1736272800000, available := true } (by decide)
      { start := 1736272800000, «end» := 1736276400000 } (by decide),
    no_overlap_with_boundary_tolerance.2 1736269200000 1736272800000
      { start := 1736265600000, «end» := 1736269200000 } (Or.inl rfl)⟩

/-! ## Claim C3: fast-forward -/

/-- C3, counterexample.  On the 2025 spring daylight-saving transition day in
America/Los_Angeles (2025-03-09, offset changes at 10:00 UTC), a cursor whose
post-step value is 2025-03-09T08:00Z (= 00:00 PST, local hour 0, before the
window) is jumped to 2025-03-09T13:00Z, whose local hour is 6 — skipping over
2025-03-09T12:00Z, the actual next occurrence of local hour 5 at minute 0. -/
theorem fastforward_dst_counterexample :
    advanceCursor pacificOffset 1741505400000 = 1741525200000 ∧
    localHour pacificOffset (1741505400000 + 30 * msPerMinute) = 0 ∧
    localHour pacificOffset 1741525200000 = 6 ∧
    localHour pacificOffset 1741521600000 = 5 ∧
    minuteOfHour 1741521600000 = 0 ∧
    (1741505400000 + 30 * msPerMinute : Int) < 1741521600000 ∧
    (1741521600000 : Int) < 1741525200000 := by
  decide

/-- C3, amended.  When the stepped cursor's local hour is before the window
start AND the zone's UTC offset does not change over the jumped span (no
daylight-saving transition there), the fast-forward lands exactly on the next
occurrence of local hour `windowStartHour` at minute 0: the landing point has
local hour 5 and minute 0, lies strictly ahead of the stepped cursor, and no
instant strictly between them has local hour 5 at minute 0.  (The code's
other fast-forward branch, for hours at/after the window end, is
unreachable: local hours are always `< 24 = windowEndHour`.) -/
theorem fastforward_amended (z : Zone) (cur : Int)
    (hlow : localHour z (cur + 30 * msPerMinute) < schedulingWindowStart)
    (hz : ∀ u : Int, cur + 30 * msPerMinute ≤ u → u ≤ advanceCursor z cur →
      z u = z (cur + 30 * msPerMinute)) :
    localHour z (advanceCursor z cur) = schedulingWindowStart ∧
    minuteOfHour (advanceCursor z cur) = 0 ∧
    cur + 30 * msPerMinute < advanceCursor z cur ∧
    ∀ u : Int, cur + 30 * msPerMinute < u → u < advanceCursor z cur →
      ¬(localHour z u = schedulingWindowStart ∧ minuteOfHour u = 0) := by
  have hlt24 := localHour_lt_24 z (cur + 30 * msPerMinute)
  have hnn := localHour_nonneg z (cur + 30 * msPerMinute)
  have hne : ¬localHour z (cur + 30 * msPerMinute) ≥ schedulingWindowEnd := by
    simp only [schedulingWindowEnd]
    omega
  have hA : advanceCursor z cur = hourFloor (cur + 30 * msPerMinute) +
      (schedulingWindowStart - localHour z (cur + 30 * msPerMinute)) * msPerHour := by
    unfold advanceCursor
    rw [if_pos (Or.inr hlow), if_neg hne]
  have hm0 : 0 ≤ (cur + 30 * msPerMinute) % msPerHour :=
    Int.emod_nonneg _ (by norm_num [msPerHour])
  have hm1 : (cur + 30 * msPerMinute) % msPerHour < msPerHour :=
    Int.emod_lt_of_pos _ (by norm_num [msPerHour])
  have hstep : cur + 30 * msPerMinute < advanceCursor z cur := by
    rw [hA]
    unfold hourFloor
    simp only [msPerMinute, msPerHour, schedulingWindowStart] at hm0 hm1 hlow hnn ⊢
    omega
  have hzA : z (advanceCursor z cur) = z (cur + 30 * msPerMinute) :=
    hz _ (le_of_lt hstep) le_rfl
  refine ⟨?_, ?_, hstep, ?_⟩
  · rw [hA] at hzA ⊢
    simp only [localHour, hourFloor, msPerMinute, msPerHour, schedulingWindowStart]
      at hzA hlow hnn hlt24 ⊢
    omega
  · rw [hA]
    simp only [minuteOfHour, localHour, hourFloor, msPerMinute, msPerHour,
      schedulingWindowStart] at hlow hnn hlt24 ⊢
    omega
  · intro u h1 h2 hcontra
    obtain ⟨hu5, -⟩ := hcontra
    have hzu : z u = z (cur + 30 * msPerMinute) := hz u (le_of_lt h1) (le_of_lt h2)
    rw [hA] at h2
    simp only [localHour, hourFloor, msPerMinute, msPerHour, schedulingWindowStart]
      at hzu hu5 h1 h2 hlow hnn hlt24
    omega

/-- C3, witness for the amended theorem: on a winter day (2025-01-07) far
from any transition, the fast-forward from a stepped cursor at 09:00 UTC
(= 01:00 PST) lands at local hour 5, minute 0. -/
theorem fastforward_witness :
    localHour pacificOffset (advanceCursor pacificOffset 1736238600000) =
      schedulingWindowStart ∧
    minuteOfHour (advanceCursor pacificOffset 1736238600000) = 0 := by
  have hA : advanceCursor pacificOffset 1736238600000 = 1736254800000 := by decide
  have h := fastforward_amended pacificOffset 1736238600000 (by decide) ?_
  · exact ⟨h.1, h.2.1⟩
  · intro u h1 h2
    rw [hA] at h2
    simp only [msPerMinute] at h1
    show pacificOffset u = pacificOffset (1736238600000 + 30 * msPerMinute)
    simp only [msPerMinute, pacificOffset]
    norm_num
    split_ifs <;> omega

/-! ## Claim C4: cap and termination -/

/-- C4: the enumeration is a total function (so it terminates on every
input); the final `slotsChecked` counter — incremented once per candidate
position examined — never exceeds `maxSlotsToCheck = 500` whatever the
inputs; and when the fuel (the remaining candidate budget) runs out the loop
returns the slots accumulated so far as a normal value, not an error. -/
theorem cap_and_termination :
    (∀ (z : Zone) (dur : Int) (events : List CalEvent) (startDate endDate : Int),
      (findAvailableSlots z dur events startDate endDate).2 ≤ maxSlotsToCheck) ∧
    (∀ (z : Zone) (dur : Int) (events : List CalEvent) (endDate cur : Int)
        (acc : List Slot) (checked : Nat),
      searchLoop z dur events endDate 0 cur acc checked = (acc, checked)) := by
  constructor
  · intro z dur events startDate endDate
    have h := searchLoop_checked z dur events endDate maxSlotsToCheck
      (initialCursor startDate) [] 0
    simpa [findAvailableSlots] using h
  · intro z dur events endDate cur acc checked
    rfl

/-! ## Claim C5: input pre-validation -/

/-- C5, counterexample.  `findAvailableSlots` performs no input validation at
all: a request with `rangeStart = rangeEnd` is processed by the normal
enumeration and returns the empty list (no `InvalidRequest` condition
exists), and a request with non-positive duration (0) is enumerated normally
and even returns a degenerate zero-length slot. -/
theorem no_validation_counterexample :
    findAvailableSlots pacificOffset 60 [] 1736272800000 1736272800000 = ([], 0) ∧
    findAvailableSlots pacificOffset 0 [] 1736272800000 1736272860000 =
      ([{ start := 1736272800000, «end» := 1736272800000, available := true }], 1) := by
  decide

/-- C5, amended.  No pre-validation or `InvalidRequest` rejection exists:
every request runs the normal enumeration; in particular whenever the rounded
initial cursor is at or past `endDate` (which covers minute-aligned requests
with `rangeStart >= rangeEnd`) the search returns the empty list with zero
candidates examined, as an ordinary result. -/
theorem no_validation_amended (z : Zone) (dur : Int) (events : List CalEvent)
    (startDate endDate : Int) (h : endDate ≤ initialCursor startDate) :
    findAvailableSlots z dur events startDate endDate = ([], 0) := by
  unfold findAvailableSlots
  exact searchLoop_stop z dur events endDate maxSlotsToCheck
    (initialCursor startDate) [] 0 (by omega)

/-- C5, witness for the amended theorem at a concrete degenerate range. -/
theorem no_validation_witness :
    findAvailableSlots pacificOffset 45 [] 1736272800000 1736272800000 = ([], 0) :=
  no_validation_amended pacificOffset 45 [] 1736272800000 1736272800000 (by decide)

/-! ## Claim C6: slot selection and the empty-result outcome -/

/-- C6, counterexample.  An empty slot list is not signalled as a distinct
`NotFound` outcome surfaced as a "no slots available" condition: the flow
throws an exception (modelled by `Except.error`), and the calling flow's
catch-all surfaces the same constant generic text for it as for an unrelated
fault such as a missing calendar authentication — a text that is not the
thrown no-slots message. -/
theorem notfound_surfacing_counterexample :
    selectSlot [] = Except.error noSlotsMessage ∧
    surfaceError noSlotsMessage = schedulingErrorNotice ∧
    surfaceError "Calendar not authenticated" = schedulingErrorNotice ∧
    schedulingErrorNotice ≠ noSlotsMessage :=
  ⟨rfl, rfl, rfl, by decide⟩

/-- C6, amended.  When the search result is non-empty the flow selects
exactly `result[0]`; when it is empty, `createAndScheduleTask` throws an
error carrying the no-slots message, and `processMessage` surfaces every
such thrown error as one constant generic notice (it is not surfaced as a
distinct "no slots available in the requested range" condition). -/
theorem slot_selection_amended :
    (∀ (s : Slot) (rest : List Slot), selectSlot (s :: rest) = Except.ok s) ∧
    selectSlot [] = Except.error noSlotsMessage ∧
    (∀ msg : String, surfaceError msg = schedulingErrorNotice) :=
  ⟨fun _ _ => rfl, rfl, fun _ => rfl⟩

/-! ## Claim C7: search end versus deadline -/

set_option maxRecDepth 40000 in
/-- C7: in `createAndScheduleTask` the search end is the later of
`searchStart + 7 days` and the deadline; consequently, for a task whose
deadline is earlier than `searchStart + 7 days` (concretely: search start
2025-01-07T17:00Z, deadline 2025-01-08T17:00Z, one busy interval covering
everything until 2025-01-09T17:00Z), the flow searches past the deadline and
selects a slot starting 2025-01-09T17:00Z — after the stated deadline. -/
theorem search_end_past_deadline :
    (∀ s d : Int, computeSearchEnd s (some d) = max (s + 7 * msPerDay) d) ∧
    computeSearchEnd 1736269200000 (some 1736355600000) =
      1736269200000 + 7 * msPerDay ∧
    selectSlot (findAvailableSlots pacificOffset 60
        [{ start := 1736269200000, «end» := 1736442000000 }] 1736269200000
        (computeSearchEnd 1736269200000 (some 1736355600000))).1 =
      Except.ok { start := 1736442000000, «end» := 1736445600000, available := true } ∧
    (1736355600000 : Int) < 1736442000000 := by
  refine ⟨?_, by decide, ?_, by decide⟩
  · intro s d
    simp only [computeSearchEnd]
    split_ifs with h
    · rw [max_eq_right (le_of_lt h)]
    · rw [max_eq_left (not_lt.mp h)]
  · rfl

/-! ## Claim C8: initial cursor rounding -/

/-- C8, counterexample.  The rounding truncates seconds and milliseconds, so
the initial cursor CAN be earlier than `startDate`: for a start date at
18:00:30 UTC (minute-of-hour 0, i.e. already on a step boundary, but with 30
seconds), the cursor is 18:00:00 UTC — 30 seconds earlier than the start
date, and not equal to it. -/
theorem initial_cursor_counterexample :
    initialCursor 1736272830000 = 1736272800000 ∧
    (1736272800000 : Int) < 1736272830000 ∧
    minuteOfHour 1736272830000 % 30 = 0 := by
  decide

/-- C8, amended.  The initial cursor equals `startDate` truncated to the
whole minute and then rounded up to the next multiple of 30 minutes within
the hour (unchanged when the truncated value is on a boundary, rolling to
the next hour when the rounding reaches 60); hence it is a multiple of 30
minutes, never earlier than `startDate` truncated to the minute, less than
30 minutes past it, and never earlier than `startDate` itself whenever
`startDate` has no sub-minute component. -/
theorem initial_cursor_amended (s : Int) :
    initialCursor s = initialCursor (minuteFloor s) ∧
    minuteFloor s ≤ initialCursor s ∧
    initialCursor s % (30 * msPerMinute) = 0 ∧
    initialCursor s < minuteFloor s + 30 * msPerMinute ∧
    (s % msPerMinute = 0 → s ≤ initialCursor s) := by
  unfold initialCursor minuteOfHour hourFloor minuteFloor
  simp only [msPerMinute, msPerHour]
  split_ifs <;> refine ⟨?_, ?_, ?_, ?_, fun h => ?_⟩ <;> omega

/-- C8, witness for the amended theorem at a concrete minute-aligned start
date, discharging the no-sub-minute hypothesis. -/
theorem initial_cursor_witness :
    (1736269200000 : Int) ≤ initialCursor 1736269200000 :=
  (initial_cursor_amended 1736269200000).2.2.2.2 (by decide)

/-! ## Claim C9: determinism and output order -/

/-- C9: the search is a pure function — two evaluations on identical inputs
(busy set, zone, duration, range) yield identical output sequences — and the
output sequence is strictly ascending in slot start. -/
theorem determinism_and_sorted :
    (∀ (z z' : Zone) (dur dur' : Int) (ev ev' : List CalEvent) (s s' e e' : Int),
      z = z' → dur = dur' → ev = ev' → s = s' → e = e' →
      findAvailableSlots z dur ev s e = findAvailableSlots z' dur' ev' s' e') ∧
    (∀ (z : Zone) (dur : Int) (ev : List CalEvent) (s e : Int),
      (findAvailableSlots z dur ev s e).1.Pairwise (fun a b => a.start < b.start)) := by
  constructor
  · intro z z' dur dur' ev ev' s s' e e' h1 h2 h3 h4 h5
    rw [h1, h2, h3, h4, h5]
  · intro z dur ev s e
    unfold findAvailableSlots
    apply searchLoop_sorted
    · exact List.Pairwise.nil
    · intro t ht
      exact absurd ht (List.not_mem_nil t)

/-- C9, witness: the determinism part applied at one concrete input. -/
theorem determinism_witness :
    findAvailableSlots pacificOffset 60 [] 1736269200000 1736269260000 =
      findAvailableSlots pacificOffset 60 [] 1736269200000 1736269260000 :=
  determinism_and_sorted.1 pacificOffset pacificOffset 60 60 [] [] 1736269200000
    1736269200000 1736269260000 1736269260000 rfl rfl rfl rfl rfl

/-! ## Claim C10: exact duration -/

/-- C10: every returned slot has length exactly `durationMinutes`, converted
to milliseconds. -/
theorem exact_duration (z : Zone) (dur : Int) (events : List CalEvent)
    (startDate endDate : Int) :
    ∀ slot ∈ (findAvailableSlots z dur events startDate endDate).1,
      slot.«end» - slot.start = dur * msPerMinute := by
  apply searchLoop_mem
  · intro cur _
    simp
  · intro s hs
    exact absurd hs (List.not_mem_nil s)

/-- C10, witness at a concrete returned slot of a 60-minute search. -/
theorem exact_duration_witness :
    (1736272800000 : Int) - 1736269200000 = 60 * msPerMinute :=
  exact_duration pacificOffset 60 [] 1736269200000 1736269260000
    { start := 1736269200000, «end» := 1736272800000, available := true } (by decide)

end TaskScheduler
